import Mathlib

/-!
Verification of the Structural Relocator ("batch_to_device") of the
pytorch_lightning excerpt.  The relocator itself is not part of the visible
source (only its test, tests_pytorch/accelerators/test_mps.py, is); the
definitions below are therefore modelled from the specification's algorithm
(spec sections 3, 4.1, 7) and checked against the behaviours the test
exercises.
-/

namespace Lightning

/-- A device identifier: an opaque token naming a compute target
(e.g. "cpu", "mps"). -/
abbrev Device := String

/-- Element type of a tensor (abstracting torch dtypes such as
FloatTensor vs LongTensor). -/
inductive DType where
  | float
  | long
deriving DecidableEq, Repr

/-- A tensor-like leaf: numeric data that lives on a specific device.
The payload `data` abstracts the numeric contents. -/
structure Tensor where
  dtype : DType
  device : Device
  data : List Int
deriving DecidableEq, Repr

/-- Errors a relocation-capability call can raise
(spec section 7: e.g. target device unavailable). -/
inductive RelocError where
  | deviceUnavailable (d : Device)
deriving DecidableEq, Repr

/-- Modelled from the spec: the tensor leaf's own relocation capability
(spec 4.1 case 1: "return a new leaf of equal data relocated onto device
(no-op if already resident there)"); it fails when the target device is
unavailable (spec section 7).  `avail` is the set of available devices. -/
def Tensor.to (t : Tensor) (avail : List Device) (d : Device) :
    Except RelocError Tensor :=
  if t.device = d then .ok t
  else if d ∈ avail then .ok { t with device := d }
  else .error (.deviceUnavailable d)

/-- Primitive values: null, boolean, number, string (spec section 3),
opaque and untouched by relocation. -/
inductive Prim where
  | null
  | bool (b : Bool)
  | num (n : Int)
  | str (s : String)
deriving DecidableEq, Repr

/-- Concrete kind of an ordered sequence (list vs tuple): relocation must
return "a new sequence of the same concrete kind". -/
inductive SeqKind where
  | list
  | tuple
deriving DecidableEq, Repr

/-- A duck-typed capability object (the test's `CustomBatchType`): it has an
object identity `id`, an internal tensor field `a`, and a `to(device)` method
that relocates the field and returns the same object. -/
structure CapObj where
  id : Nat
  a : Tensor
deriving DecidableEq, Repr

/-- Modelled from the spec: the capability object's `to(device)` method
(spec 4.1 case 5), mutating the internal tensor field in place and returning
self (the test's `CustomBatchType.to`). A failure of the inner relocation
propagates. -/
def CapObj.to (c : CapObj) (avail : List Device) (d : Device) :
    Except RelocError CapObj :=
  match c.a.to avail d with
  | .ok a' => .ok ⟨c.id, a'⟩
  | .error e => .error e

mutual
/-- A batch value (spec section 3): primitive, tensor-like leaf, ordered
sequence, named-field record, mapping, capability-bearing object, the legacy
torchtext Batch object, or an unrecognized leaf without capability. -/
inductive BatchValue where
  | prim (p : Prim)
  | tensor (t : Tensor)
  | seq (k : SeqKind) (xs : BatchList)
  | record (ctor : String) (fields : EntryList)
  | mapping (entries : EntryList)
  | cap (c : CapObj)
  | legacyBatch (fields : List (String × Tensor))
  | other (tag : Nat)

/-- A list of batch values (elements of a sequence). -/
inductive BatchList where
  | nil
  | cons (x : BatchValue) (xs : BatchList)

/-- An ordered association of string keys to batch values (the fields of a
record, or the entries of an order-preserving mapping). -/
inductive EntryList where
  | nil
  | cons (key : String) (v : BatchValue) (rest : EntryList)
end

/-- The deprecation signal emitted when the legacy torchtext Batch object is
relocated (test line 160). -/
def torchtextDeprecationMsg : String :=
  "The torchtext.legacy.Batch object is deprecated"

/-- Modelled from the spec: relocation of the legacy Batch object's named
tensor fields (spec 4.1 case 7: "extract its named tensor fields, relocate
each, and reconstruct the same object type"). -/
def relocTensorFields (avail : List Device) (d : Device) :
    List (String × Tensor) → Except RelocError (List (String × Tensor))
  | [] => .ok []
  | (n, t) :: rest =>
    match t.to avail d with
    | .error e => .error e
    | .ok t' =>
      match relocTensorFields avail d rest with
      | .error e => .error e
      | .ok rest' => .ok ((n, t') :: rest')

mutual
/-- Modelled from the spec: the Structural Relocator
`relocate(value, device)` (spec 4.1), which is `batch_to_device` /
`move_data_to_device` of the repository, absent from the visible source.
Case dispatch by runtime shape; returns the relocated value together with
the list of deprecation signals surfaced to the caller (spec 4.1 case 7 and
design note: "the call additionally returns/logs a deprecation notice").
Failures of a leaf's capability propagate unmodified (spec section 7). -/
def relocate (avail : List Device) (d : Device) :
    BatchValue → Except RelocError (BatchValue × List String)
  | .prim p => .ok (.prim p, [])
  | .tensor t =>
    match t.to avail d with
    | .ok t' => .ok (.tensor t', [])
    | .error e => .error e
  | .seq k xs =>
    match relocList avail d xs with
    | .ok (ys, ws) => .ok (.seq k ys, ws)
    | .error e => .error e
  | .record ctor fields =>
    match relocEntries avail d fields with
    | .ok (fs', ws) => .ok (.record ctor fs', ws)
    | .error e => .error e
  | .mapping entries =>
    match relocEntries avail d entries with
    | .ok (es', ws) => .ok (.mapping es', ws)
    | .error e => .error e
  | .cap c =>
    match c.to avail d with
    | .ok c' => .ok (.cap c', [])
    | .error e => .error e
  | .legacyBatch fields =>
    match relocTensorFields avail d fields with
    | .ok fs' => .ok (.legacyBatch fs', [torchtextDeprecationMsg])
    | .error e => .error e
  | .other tag => .ok (.other tag, [])

/-- Relocate every element of a sequence, in order, concatenating the
deprecation signals. -/
def relocList (avail : List Device) (d : Device) :
    BatchList → Except RelocError (BatchList × List String)
  | .nil => .ok (.nil, [])
  | .cons x xs =>
    match relocate avail d x with
    | .error e => .error e
    | .ok (x', wx) =>
      match relocList avail d xs with
      | .error e => .error e
      | .ok (xs', wxs) => .ok (.cons x' xs', wx ++ wxs)

/-- Relocate every value of a key/value association, preserving keys and
their order. -/
def relocEntries (avail : List Device) (d : Device) :
    EntryList → Except RelocError (EntryList × List String)
  | .nil => .ok (.nil, [])
  | .cons key v rest =>
    match relocate avail d v with
    | .error e => .error e
    | .ok (v', wv) =>
      match relocEntries avail d rest with
      | .error e => .error e
      | .ok (rest', wrest) => .ok (.cons key v' rest', wv ++ wrest)
end

/-- `t` with its device replaced by `d` (same dtype, same data). -/
def Tensor.setDev (d : Device) (t : Tensor) : Tensor :=
  { t with device := d }

mutual
/-- The value with every tensor-like leaf (including the internal tensors of
capability objects and legacy Batch fields) placed on device `d`, everything
else untouched.  This is the intended result of `relocate`. -/
def BatchValue.setDev (d : Device) : BatchValue → BatchValue
  | .prim p => .prim p
  | .tensor t => .tensor (t.setDev d)
  | .seq k xs => .seq k (xs.setDev d)
  | .record ctor fields => .record ctor (fields.setDev d)
  | .mapping entries => .mapping (entries.setDev d)
  | .cap c => .cap ⟨c.id, c.a.setDev d⟩
  | .legacyBatch fields =>
    .legacyBatch (fields.map (fun nt => (nt.1, nt.2.setDev d)))
  | .other tag => .other tag

/-- Elementwise `BatchValue.setDev` on a sequence. -/
def BatchList.setDev (d : Device) : BatchList → BatchList
  | .nil => .nil
  | .cons x xs => .cons (x.setDev d) (xs.setDev d)

/-- Valuewise `BatchValue.setDev` on a key/value association. -/
def EntryList.setDev (d : Device) : EntryList → EntryList
  | .nil => .nil
  | .cons key v rest => .cons key (v.setDev d) (rest.setDev d)
end

mutual
/-- The deprecation signals relocating this value surfaces: one message per
legacy Batch object it contains, in traversal order. -/
def BatchValue.warns : BatchValue → List String
  | .prim _ => []
  | .tensor _ => []
  | .seq _ xs => xs.warns
  | .record _ fields => fields.warns
  | .mapping entries => entries.warns
  | .cap _ => []
  | .legacyBatch _ => [torchtextDeprecationMsg]
  | .other _ => []

/-- Concatenated deprecation signals of a sequence's elements. -/
def BatchList.warns : BatchList → List String
  | .nil => []
  | .cons x xs => x.warns ++ xs.warns

/-- Concatenated deprecation signals of an association's values. -/
def EntryList.warns : EntryList → List String
  | .nil => []
  | .cons _ v rest => v.warns ++ rest.warns
end

mutual
/-- The value with every tensor device erased (set to ""): two values with
equal erasures agree on everything except the devices of their tensor-like
leaves — same shape, same concrete container kinds, same keys and field
order, same primitive values, same tensor data and dtypes, same capability
object identities. -/
def BatchValue.eraseDev : BatchValue → BatchValue
  | .prim p => .prim p
  | .tensor t => .tensor (t.setDev "")
  | .seq k xs => .seq k xs.eraseDev
  | .record ctor fields => .record ctor fields.eraseDev
  | .mapping entries => .mapping entries.eraseDev
  | .cap c => .cap ⟨c.id, c.a.setDev ""⟩
  | .legacyBatch fields =>
    .legacyBatch (fields.map (fun nt => (nt.1, nt.2.setDev "")))
  | .other tag => .other tag

/-- Elementwise device erasure on a sequence. -/
def BatchList.eraseDev : BatchList → BatchList
  | .nil => .nil
  | .cons x xs => .cons x.eraseDev xs.eraseDev

/-- Valuewise device erasure on a key/value association. -/
def EntryList.eraseDev : EntryList → EntryList
  | .nil => .nil
  | .cons key v rest => .cons key v.eraseDev rest.eraseDev
end

mutual
/-- Does every tensor-like leaf of the value (including inside capability
objects and the legacy Batch) reside on device `d`? -/
def BatchValue.onDev (d : Device) : BatchValue → Bool
  | .prim _ => true
  | .tensor t => t.device = d
  | .seq _ xs => xs.onDev d
  | .record _ fields => fields.onDev d
  | .mapping entries => entries.onDev d
  | .cap c => c.a.device = d
  | .legacyBatch fields => fields.all (fun nt => nt.2.device = d)
  | .other _ => true

/-- `BatchValue.onDev` for every element of a sequence. -/
def BatchList.onDev (d : Device) : BatchList → Bool
  | .nil => true
  | .cons x xs => x.onDev d && xs.onDev d

/-- `BatchValue.onDev` for every value of an association. -/
def EntryList.onDev (d : Device) : EntryList → Bool
  | .nil => true
  | .cons _ v rest => v.onDev d && rest.onDev d
end

/-- Number of elements of a sequence. -/
def BatchList.length : BatchList → Nat
  | .nil => 0
  | .cons _ xs => xs.length + 1

/-- The keys of an association, in insertion order. -/
def EntryList.keys : EntryList → List String
  | .nil => []
  | .cons key _ rest => key :: rest.keys

/-- Is the value a bare tensor leaf? -/
def BatchValue.isTensor : BatchValue → Bool
  | .tensor _ => true
  | _ => false

/-- Are all elements of the sequence bare tensor leaves? -/
def BatchList.allTensors : BatchList → Bool
  | .nil => true
  | .cons x xs => x.isTensor && xs.allTensors

/-- Are all values of the association bare tensor leaves? -/
def EntryList.allTensors : EntryList → Bool
  | .nil => true
  | .cons _ v rest => v.isTensor && rest.allTensors

mutual
/-- The dtypes of the value's tensor-like leaves, in traversal order
(including capability objects' internal tensors and legacy Batch fields). -/
def BatchValue.dtypes : BatchValue → List DType
  | .prim _ => []
  | .tensor t => [t.dtype]
  | .seq _ xs => xs.dtypes
  | .record _ fields => fields.dtypes
  | .mapping entries => entries.dtypes
  | .cap c => [c.a.dtype]
  | .legacyBatch fields => fields.map (fun nt => nt.2.dtype)
  | .other _ => []

/-- Concatenated dtypes of a sequence's elements. -/
def BatchList.dtypes : BatchList → List DType
  | .nil => []
  | .cons x xs => x.dtypes ++ xs.dtypes

/-- Concatenated dtypes of an association's values. -/
def EntryList.dtypes : EntryList → List DType
  | .nil => []
  | .cons _ v rest => v.dtypes ++ rest.dtypes
end

/-! ### Basic lemmas about the leaf capabilities -/

theorem Tensor.setDev_self {t : Tensor} {d : Device} (h : t.device = d) :
    t.setDev d = t := by
  cases t
  simp_all [Tensor.setDev]

theorem Tensor.setDev_setDev (t : Tensor) (d1 d2 : Device) :
    (t.setDev d1).setDev d2 = t.setDev d2 := by
  cases t
  rfl

theorem Tensor.setDev_device (t : Tensor) (d : Device) :
    (t.setDev d).device = d := rfl

theorem Tensor.setDev_dtype (t : Tensor) (d : Device) :
    (t.setDev d).dtype = t.dtype := rfl

theorem tensor_to_ok {avail : List Device} {d : Device} {t t' : Tensor}
    (h : t.to avail d = .ok t') : t' = t.setDev d := by
  unfold Tensor.to at h
  split at h
  · rename_i hd
    rw [Except.ok.injEq] at h
    rw [← h]
    exact (Tensor.setDev_self hd).symm
  · split at h
    · rw [Except.ok.injEq] at h
      exact h.symm
    · exact Except.noConfusion h

theorem tensor_to_fixed {t : Tensor} {d : Device} (avail : List Device)
    (h : t.device = d) : t.to avail d = .ok t := by
  unfold Tensor.to
  simp [h]

theorem capObj_to_ok {avail : List Device} {d : Device} {c c' : CapObj}
    (h : c.to avail d = .ok c') : c' = ⟨c.id, c.a.setDev d⟩ := by
  unfold CapObj.to at h
  split at h
  · rename_i a' ha
    rw [Except.ok.injEq] at h
    rw [← h, tensor_to_ok ha]
  · exact Except.noConfusion h

theorem capObj_to_fixed {c : CapObj} {d : Device} (avail : List Device)
    (h : c.a.device = d) : c.to avail d = .ok c := by
  unfold CapObj.to
  rw [tensor_to_fixed avail h]

theorem relocTensorFields_ok {avail : List Device} {d : Device} :
    ∀ {fs fs' : List (String × Tensor)},
      relocTensorFields avail d fs = .ok fs' →
      fs' = fs.map (fun nt => (nt.1, nt.2.setDev d))
  | [], fs', h => by
    rw [relocTensorFields, Except.ok.injEq] at h
    simp [← h]
  | (n, t) :: rest, fs', h => by
    rw [relocTensorFields] at h
    split at h
    · exact Except.noConfusion h
    · rename_i t' ht
      split at h
      · exact Except.noConfusion h
      · rename_i rest' hrest
        rw [Except.ok.injEq] at h
        rw [← h, tensor_to_ok ht, relocTensorFields_ok hrest]
        simp

theorem relocTensorFields_fixed {d : Device} (avail : List Device) :
    ∀ {fs : List (String × Tensor)},
      fs.all (fun nt => nt.2.device = d) = true →
      relocTensorFields avail d fs = .ok fs
  | [], _ => rfl
  | (n, t) :: rest, h => by
    simp only [List.all_cons, Bool.and_eq_true, decide_eq_true_eq] at h
    rw [relocTensorFields, tensor_to_fixed avail h.1,
      relocTensorFields_fixed avail (by simp [List.all_eq_true] at h ⊢; exact h.2)]

/-! ### The master characterization of `relocate` on success -/

mutual
theorem relocate_ok_eq (avail : List Device) (d : Device) :
    ∀ (v v' : BatchValue) (ws : List String),
      relocate avail d v = .ok (v', ws) →
      v' = v.setDev d ∧ ws = v.warns
  | .prim p, v', ws, h => by
    rw [relocate, Except.ok.injEq, Prod.mk.injEq] at h
    exact ⟨h.1.symm, h.2.symm⟩
  | .tensor t, v', ws, h => by
    rw [relocate] at h
    split at h
    · rename_i t' ht
      rw [Except.ok.injEq, Prod.mk.injEq] at h
      rw [← h.1, ← h.2, tensor_to_ok ht]
      exact ⟨rfl, rfl⟩
    · exact Except.noConfusion h
  | .seq k xs, v', ws, h => by
    rw [relocate] at h
    split at h
    · rename_i ys wys hxs
      obtain ⟨h1, h2⟩ := relocList_ok_eq avail d xs ys wys hxs
      rw [Except.ok.injEq, Prod.mk.injEq] at h
      rw [← h.1, ← h.2, h1, h2]
      exact ⟨rfl, rfl⟩
    · exact Except.noConfusion h
  | .record ctor fields, v', ws, h => by
    rw [relocate] at h
    split at h
    · rename_i fs' wfs hfs
      obtain ⟨h1, h2⟩ := relocEntries_ok_eq avail d fields fs' wfs hfs
      rw [Except.ok.injEq, Prod.mk.injEq] at h
      rw [← h.1, ← h.2, h1, h2]
      exact ⟨rfl, rfl⟩
    · exact Except.noConfusion h
  | .mapping entries, v', ws, h => by
    rw [relocate] at h
    split at h
    · rename_i es' wes hes
      obtain ⟨h1, h2⟩ := relocEntries_ok_eq avail d entries es' wes hes
      rw [Except.ok.injEq, Prod.mk.injEq] at h
      rw [← h.1, ← h.2, h1, h2]
      exact ⟨rfl, rfl⟩
    · exact Except.noConfusion h
  | .cap c, v', ws, h => by
    rw [relocate] at h
    split at h
    · rename_i c' hc
      rw [Except.ok.injEq, Prod.mk.injEq] at h
      rw [← h.1, ← h.2, capObj_to_ok hc]
      exact ⟨rfl, rfl⟩
    · exact Except.noConfusion h
  | .legacyBatch fields, v', ws, h => by
    rw [relocate] at h
    split at h
    · rename_i fs' hfs
      rw [Except.ok.injEq, Prod.mk.injEq] at h
      rw [← h.1, ← h.2, relocTensorFields_ok hfs]
      exact ⟨rfl, rfl⟩
    · exact Except.noConfusion h
  | .other tag, v', ws, h => by
    rw [relocate, Except.ok.injEq, Prod.mk.injEq] at h
    exact ⟨h.1.symm, h.2.symm⟩

theorem relocList_ok_eq (avail : List Device) (d : Device) :
    ∀ (xs ys : BatchList) (ws : List String),
      relocList avail d xs = .ok (ys, ws) →
      ys = xs.setDev d ∧ ws = xs.warns
  | .nil, ys, ws, h => by
    rw [relocList, Except.ok.injEq, Prod.mk.injEq] at h
    exact ⟨h.1.symm, h.2.symm⟩
  | .cons x xs, ys, ws, h => by
    rw [relocList] at h
    split at h
    · exact Except.noConfusion h
    · rename_i x' wx hx
      split at h
      · exact Except.noConfusion h
      · rename_i xs' wxs hxs
        obtain ⟨hx1, hx2⟩ := relocate_ok_eq avail d x x' wx hx
        obtain ⟨hxs1, hxs2⟩ := relocList_ok_eq avail d xs xs' wxs hxs
        rw [Except.ok.injEq, Prod.mk.injEq] at h
        rw [← h.1, ← h.2, hx1, hx2, hxs1, hxs2]
        exact ⟨rfl, rfl⟩

theorem relocEntries_ok_eq (avail : List Device) (d : Device) :
    ∀ (es es' : EntryList) (ws : List String),
      relocEntries avail d es = .ok (es', ws) →
      es' = es.setDev d ∧ ws = es.warns
  | .nil, es', ws, h => by
    rw [relocEntries, Except.ok.injEq, Prod.mk.injEq] at h
    exact ⟨h.1.symm, h.2.symm⟩
  | .cons key v rest, es', ws, h => by
    rw [relocEntries] at h
    split at h
    · exact Except.noConfusion h
    · rename_i v' wv hv
      split at h
      · exact Except.noConfusion h
      · rename_i rest' wrest hrest
        obtain ⟨hv1, hv2⟩ := relocate_ok_eq avail d v v' wv hv
        obtain ⟨hr1, hr2⟩ := relocEntries_ok_eq avail d rest rest' wrest hrest
        rw [Except.ok.injEq, Prod.mk.injEq] at h
        rw [← h.1, ← h.2, hv1, hv2, hr1, hr2]
        exact ⟨rfl, rfl⟩
end

/-! ### Relocation is the identity on values already resident on `d` -/

mutual
theorem relocate_fixed (avail : List Device) (d : Device) :
    ∀ (v : BatchValue), v.onDev d = true →
      relocate avail d v = .ok (v, v.warns)
  | .prim p, _ => rfl
  | .tensor t, h => by
    simp only [BatchValue.onDev, decide_eq_true_eq] at h
    rw [relocate, tensor_to_fixed avail h]
    rfl
  | .seq k xs, h => by
    rw [BatchValue.onDev] at h
    rw [relocate, relocList_fixed avail d xs h]
    rfl
  | .record ctor fields, h => by
    rw [BatchValue.onDev] at h
    rw [relocate, relocEntries_fixed avail d fields h]
    rfl
  | .mapping entries, h => by
    rw [BatchValue.onDev] at h
    rw [relocate, relocEntries_fixed avail d entries h]
    rfl
  | .cap c, h => by
    simp only [BatchValue.onDev, decide_eq_true_eq] at h
    rw [relocate, capObj_to_fixed avail h]
    rfl
  | .legacyBatch fields, h => by
    rw [BatchValue.onDev] at h
    rw [relocate, relocTensorFields_fixed avail h]
    rfl
  | .other tag, _ => rfl

theorem relocList_fixed (avail : List Device) (d : Device) :
    ∀ (xs : BatchList), xs.onDev d = true →
      relocList avail d xs = .ok (xs, xs.warns)
  | .nil, _ => rfl
  | .cons x xs, h => by
    rw [BatchList.onDev, Bool.and_eq_true] at h
    rw [relocList, relocate_fixed avail d x h.1, relocList_fixed avail d xs h.2]
    rfl

theorem relocEntries_fixed (avail : List Device) (d : Device) :
    ∀ (es : EntryList), es.onDev d = true →
      relocEntries avail d es = .ok (es, es.warns)
  | .nil, _ => rfl
  | .cons key v rest, h => by
    rw [EntryList.onDev, Bool.and_eq_true] at h
    rw [relocEntries, relocate_fixed avail d v h.1,
      relocEntries_fixed avail d rest h.2]
    rfl
end

/-! ### Structural facts about `setDev` -/

mutual
theorem onDev_setDev_value (d : Device) :
    ∀ (v : BatchValue), (v.setDev d).onDev d = true
  | .prim p => rfl
  | .tensor t => by simp [BatchValue.setDev, BatchValue.onDev, Tensor.setDev]
  | .seq k xs => by
    rw [BatchValue.setDev, BatchValue.onDev]
    exact onDev_setDev_list d xs
  | .record ctor fields => by
    rw [BatchValue.setDev, BatchValue.onDev]
    exact onDev_setDev_entries d fields
  | .mapping entries => by
    rw [BatchValue.setDev, BatchValue.onDev]
    exact onDev_setDev_entries d entries
  | .cap c => by simp [BatchValue.setDev, BatchValue.onDev, Tensor.setDev]
  | .legacyBatch fields => by
    simp [BatchValue.setDev, BatchValue.onDev, List.all_map, Function.comp,
      Tensor.setDev]
  | .other tag => rfl

theorem onDev_setDev_list (d : Device) :
    ∀ (xs : BatchList), (xs.setDev d).onDev d = true
  | .nil => rfl
  | .cons x xs => by
    rw [BatchList.setDev, BatchList.onDev, Bool.and_eq_true]
    exact ⟨onDev_setDev_value d x, onDev_setDev_list d xs⟩

theorem onDev_setDev_entries (d : Device) :
    ∀ (es : EntryList), (es.setDev d).onDev d = true
  | .nil => rfl
  | .cons key v rest => by
    rw [EntryList.setDev, EntryList.onDev, Bool.and_eq_true]
    exact ⟨onDev_setDev_value d v, onDev_setDev_entries d rest⟩
end

mutual
theorem eraseDev_setDev_value (d : Device) :
    ∀ (v : BatchValue), (v.setDev d).eraseDev = v.eraseDev
  | .prim p => rfl
  | .tensor t => by
    rw [BatchValue.setDev, BatchValue.eraseDev, BatchValue.eraseDev,
      Tensor.setDev_setDev]
  | .seq k xs => by
    rw [BatchValue.setDev, BatchValue.eraseDev, BatchValue.eraseDev,
      eraseDev_setDev_list d xs]
  | .record ctor fields => by
    rw [BatchValue.setDev, BatchValue.eraseDev, BatchValue.eraseDev,
      eraseDev_setDev_entries d fields]
  | .mapping entries => by
    rw [BatchValue.setDev, BatchValue.eraseDev, BatchValue.eraseDev,
      eraseDev_setDev_entries d entries]
  | .cap c => by
    rw [BatchValue.setDev, BatchValue.eraseDev, BatchValue.eraseDev,
      Tensor.setDev_setDev]
  | .legacyBatch fields => by
    simp [BatchValue.setDev, BatchValue.eraseDev, List.map_map, Function.comp,
      Tensor.setDev_setDev]
  | .other tag => rfl

theorem eraseDev_setDev_list (d : Device) :
    ∀ (xs : BatchList), (xs.setDev d).eraseDev = xs.eraseDev
  | .nil => rfl
  | .cons x xs => by
    rw [BatchList.setDev, BatchList.eraseDev, BatchList.eraseDev,
      eraseDev_setDev_value d x, eraseDev_setDev_list d xs]

theorem eraseDev_setDev_entries (d : Device) :
    ∀ (es : EntryList), (es.setDev d).eraseDev = es.eraseDev
  | .nil => rfl
  | .cons key v rest => by
    rw [EntryList.setDev, EntryList.eraseDev, EntryList.eraseDev,
      eraseDev_setDev_value d v, eraseDev_setDev_entries d rest]
end

mutual
theorem dtypes_setDev_value (d : Device) :
    ∀ (v : BatchValue), (v.setDev d).dtypes = v.dtypes
  | .prim p => rfl
  | .tensor t => rfl
  | .seq k xs => by
    rw [BatchValue.setDev, BatchValue.dtypes, BatchValue.dtypes,
      dtypes_setDev_list d xs]
  | .record ctor fields => by
    rw [BatchValue.setDev, BatchValue.dtypes, BatchValue.dtypes,
      dtypes_setDev_entries d fields]
  | .mapping entries => by
    rw [BatchValue.setDev, BatchValue.dtypes, BatchValue.dtypes,
      dtypes_setDev_entries d entries]
  | .cap c => rfl
  | .legacyBatch fields => by
    simp [BatchValue.setDev, BatchValue.dtypes, List.map_map, Function.comp,
      Tensor.setDev_dtype]
  | .other tag => rfl

theorem dtypes_setDev_list (d : Device) :
    ∀ (xs : BatchList), (xs.setDev d).dtypes = xs.dtypes
  | .nil => rfl
  | .cons x xs => by
    rw [BatchList.setDev, BatchList.dtypes, BatchList.dtypes,
      dtypes_setDev_value d x, dtypes_setDev_list d xs]

theorem dtypes_setDev_entries (d : Device) :
    ∀ (es : EntryList), (es.setDev d).dtypes = es.dtypes
  | .nil => rfl
  | .cons key v rest => by
    rw [EntryList.setDev, EntryList.dtypes, EntryList.dtypes,
      dtypes_setDev_value d v, dtypes_setDev_entries d rest]
end

theorem BatchList.length_setDev (d : Device) :
    ∀ (xs : BatchList), (xs.setDev d).length = xs.length
  | .nil => rfl
  | .cons x xs => by
    rw [BatchList.setDev, BatchList.length, BatchList.length,
      BatchList.length_setDev d xs]

theorem EntryList.keys_setDev (d : Device) :
    ∀ (es : EntryList), (es.setDev d).keys = es.keys
  | .nil => rfl
  | .cons key v rest => by
    rw [EntryList.setDev, EntryList.keys, EntryList.keys,
      EntryList.keys_setDev d rest]

mutual
theorem warns_setDev_value (d : Device) :
    ∀ (v : BatchValue), (v.setDev d).warns = v.warns
  | .prim p => rfl
  | .tensor t => rfl
  | .seq k xs => by
    rw [BatchValue.setDev, BatchValue.warns, BatchValue.warns,
      warns_setDev_list d xs]
  | .record ctor fields => by
    rw [BatchValue.setDev, BatchValue.warns, BatchValue.warns,
      warns_setDev_entries d fields]
  | .mapping entries => by
    rw [BatchValue.setDev, BatchValue.warns, BatchValue.warns,
      warns_setDev_entries d entries]
  | .cap c => rfl
  | .legacyBatch fields => rfl
  | .other tag => rfl

theorem warns_setDev_list (d : Device) :
    ∀ (xs : BatchList), (xs.setDev d).warns = xs.warns
  | .nil => rfl
  | .cons x xs => by
    rw [BatchList.setDev, BatchList.warns, BatchList.warns,
      warns_setDev_value d x, warns_setDev_list d xs]

theorem warns_setDev_entries (d : Device) :
    ∀ (es : EntryList), (es.setDev d).warns = es.warns
  | .nil => rfl
  | .cons key v rest => by
    rw [EntryList.setDev, EntryList.warns, EntryList.warns,
      warns_setDev_value d v, warns_setDev_entries d rest]
end

/-! ### The claims -/

/-- Claim C1: `relocate` is structure-preserving: whenever it succeeds, the
output agrees with the input on everything except the devices of tensor-like
leaves (same shape, concrete container kinds, keys, field order, primitive
values, tensor data and dtypes, object identities); and leaf types that
neither match a container shape nor declare the relocation capability
(primitives and unrecognized objects) pass through unchanged, not as an
error. -/
theorem c1_relocate_structure_preserving (avail : List Device) (d : Device)
    (v v' : BatchValue) (ws : List String)
    (h : relocate avail d v = .ok (v', ws)) :
    v'.eraseDev = v.eraseDev ∧
    (∀ p : Prim, relocate avail d (.prim p) = .ok (.prim p, [])) ∧
    (∀ tag : Nat, relocate avail d (.other tag) = .ok (.other tag, [])) := by
  obtain ⟨h1, _⟩ := relocate_ok_eq avail d v v' ws h
  refine ⟨?_, fun p => rfl, fun tag => rfl⟩
  rw [h1]
  exact eraseDev_setDev_value d v

/-- Witness for C1 at a concrete nested input. -/
theorem c1_witness :
    relocate ["mps"] "mps"
        (.seq .list
          (.cons (.tensor ⟨.float, "cpu", [1, 2]⟩)
            (.cons (.other 7) .nil))) =
      .ok (.seq .list
        (.cons (.tensor ⟨.float, "mps", [1, 2]⟩)
          (.cons (.other 7) .nil)), []) ∧
    ((BatchValue.seq .list
        (.cons (.tensor ⟨.float, "mps", [1, 2]⟩)
          (.cons (.other 7) .nil))).eraseDev =
      (BatchValue.seq .list
        (.cons (.tensor ⟨.float, "cpu", [1, 2]⟩)
          (.cons (.other 7) .nil))).eraseDev ∧
    (∀ p : Prim, relocate ["mps"] "mps" (.prim p) = .ok (.prim p, [])) ∧
    (∀ tag : Nat, relocate ["mps"] "mps" (.other tag) = .ok (.other tag, []))) :=
  ⟨rfl, c1_relocate_structure_preserving ["mps"] "mps" _ _ _ rfl⟩

/-- Claim C2: relocating a primitive value (null, boolean, number, string)
returns it unchanged, on every device and every availability environment. -/
theorem c2_relocate_prim (avail : List Device) (d : Device) (p : Prim) :
    relocate avail d (.prim p) = .ok (.prim p, []) := rfl

/-- Claim C3: relocating a sequence of tensor-like leaves yields a sequence
of the same concrete kind whose elements are the relocations of the original
elements in order, of the same length, and every element resides on the
target device. -/
theorem c3_relocate_seq (avail : List Device) (d : Device) (k : SeqKind)
    (xs : BatchList) (v' : BatchValue) (ws : List String)
    (hall : xs.allTensors = true)
    (h : relocate avail d (.seq k xs) = .ok (v', ws)) :
    v' = .seq k (xs.setDev d) ∧
    (xs.setDev d).length = xs.length ∧
    (xs.setDev d).onDev d = true := by
  obtain ⟨h1, _⟩ := relocate_ok_eq avail d _ v' ws h
  exact ⟨h1, BatchList.length_setDev d xs, onDev_setDev_list d xs⟩

/-- Witness for C3: a two-tensor list relocated onto "mps". -/
theorem c3_witness :
    (BatchList.cons (BatchValue.tensor ⟨.float, "cpu", [1]⟩)
        (.cons (.tensor ⟨.float, "cpu", [2, 3]⟩) .nil)).allTensors = true ∧
    relocate ["mps"] "mps"
        (.seq .list
          (.cons (.tensor ⟨.float, "cpu", [1]⟩)
            (.cons (.tensor ⟨.float, "cpu", [2, 3]⟩) .nil))) =
      .ok (.seq .list
        (.cons (.tensor ⟨.float, "mps", [1]⟩)
          (.cons (.tensor ⟨.float, "mps", [2, 3]⟩) .nil)), []) ∧
    (BatchValue.seq .list
        (.cons (.tensor ⟨.float, "mps", [1]⟩)
          (.cons (.tensor ⟨.float, "mps", [2, 3]⟩) .nil)) =
      .seq .list
        ((BatchList.cons (BatchValue.tensor ⟨.float, "cpu", [1]⟩)
          (.cons (.tensor ⟨.float, "cpu", [2, 3]⟩) .nil)).setDev "mps") ∧
    ((BatchList.cons (BatchValue.tensor ⟨.float, "cpu", [1]⟩)
        (.cons (.tensor ⟨.float, "cpu", [2, 3]⟩) .nil)).setDev "mps").length =
      (BatchList.cons (BatchValue.tensor ⟨.float, "cpu", [1]⟩)
        (.cons (.tensor ⟨.float, "cpu", [2, 3]⟩) .nil)).length ∧
    ((BatchList.cons (BatchValue.tensor ⟨.float, "cpu", [1]⟩)
        (.cons (.tensor ⟨.float, "cpu", [2, 3]⟩) .nil)).setDev "mps").onDev
      "mps" = true) :=
  ⟨rfl, rfl, c3_relocate_seq ["mps"] "mps" .list _ _ [] rfl rfl⟩

/-- Claim C4: relocating a mapping yields a mapping with the identical key
list (same key set, insertion order preserved), each value recursively
relocated, so that every tensor-like value of the result resides on the
target device. -/
theorem c4_relocate_mapping (avail : List Device) (d : Device)
    (es : EntryList) (v' : BatchValue) (ws : List String)
    (h : relocate avail d (.mapping es) = .ok (v', ws)) :
    v' = .mapping (es.setDev d) ∧
    (es.setDev d).keys = es.keys ∧
    (es.setDev d).onDev d = true := by
  obtain ⟨h1, _⟩ := relocate_ok_eq avail d _ v' ws h
  exact ⟨h1, EntryList.keys_setDev d es, onDev_setDev_entries d es⟩

/-- Witness for C4: a two-key tensor dict relocated onto "mps". -/
theorem c4_witness :
    relocate ["mps"] "mps"
        (.mapping
          (.cons "a" (.tensor ⟨.float, "cpu", [1]⟩)
            (.cons "b" (.tensor ⟨.float, "cpu", [2]⟩) .nil))) =
      .ok (.mapping
        (.cons "a" (.tensor ⟨.float, "mps", [1]⟩)
          (.cons "b" (.tensor ⟨.float, "mps", [2]⟩) .nil)), []) ∧
    (BatchValue.mapping
        (.cons "a" (.tensor ⟨.float, "mps", [1]⟩)
          (.cons "b" (.tensor ⟨.float, "mps", [2]⟩) .nil)) =
      .mapping
        ((EntryList.cons "a" (BatchValue.tensor ⟨.float, "cpu", [1]⟩)
          (.cons "b" (.tensor ⟨.float, "cpu", [2]⟩) .nil)).setDev "mps") ∧
    ((EntryList.cons "a" (BatchValue.tensor ⟨.float, "cpu", [1]⟩)
        (.cons "b" (.tensor ⟨.float, "cpu", [2]⟩) .nil)).setDev "mps").keys =
      (EntryList.cons "a" (BatchValue.tensor ⟨.float, "cpu", [1]⟩)
        (.cons "b" (.tensor ⟨.float, "cpu", [2]⟩) .nil)).keys ∧
    ((EntryList.cons "a" (BatchValue.tensor ⟨.float, "cpu", [1]⟩)
        (.cons "b" (.tensor ⟨.float, "cpu", [2]⟩) .nil)).setDev "mps").onDev
      "mps" = true) :=
  ⟨rfl, c4_relocate_mapping ["mps"] "mps" _ _ [] rfl⟩

/-- Claim C5: relocating a named-field record of tensor leaves reconstructs
a record with the same constructor, the same field names in the same order,
and every field relocated onto the target device. -/
theorem c5_relocate_record (avail : List Device) (d : Device) (ctor : String)
    (fields : EntryList) (v' : BatchValue) (ws : List String)
    (hall : fields.allTensors = true)
    (h : relocate avail d (.record ctor fields) = .ok (v', ws)) :
    v' = .record ctor (fields.setDev d) ∧
    (fields.setDev d).keys = fields.keys ∧
    (fields.setDev d).onDev d = true := by
  obtain ⟨h1, _⟩ := relocate_ok_eq avail d _ v' ws h
  exact ⟨h1, EntryList.keys_setDev d fields, onDev_setDev_entries d fields⟩

/-- Witness for C5: the test's `BatchType` namedtuple of two tensors. -/
theorem c5_witness :
    (EntryList.cons "a" (BatchValue.tensor ⟨.float, "cpu", [1]⟩)
        (.cons "b" (.tensor ⟨.float, "cpu", [2]⟩) .nil)).allTensors = true ∧
    relocate ["mps"] "mps"
        (.record "BatchType"
          (.cons "a" (.tensor ⟨.float, "cpu", [1]⟩)
            (.cons "b" (.tensor ⟨.float, "cpu", [2]⟩) .nil))) =
      .ok (.record "BatchType"
        (.cons "a" (.tensor ⟨.float, "mps", [1]⟩)
          (.cons "b" (.tensor ⟨.float, "mps", [2]⟩) .nil)), []) ∧
    (BatchValue.record "BatchType"
        (.cons "a" (.tensor ⟨.float, "mps", [1]⟩)
          (.cons "b" (.tensor ⟨.float, "mps", [2]⟩) .nil)) =
      .record "BatchType"
        ((EntryList.cons "a" (BatchValue.tensor ⟨.float, "cpu", [1]⟩)
          (.cons "b" (.tensor ⟨.float, "cpu", [2]⟩) .nil)).setDev "mps") ∧
    ((EntryList.cons "a" (BatchValue.tensor ⟨.float, "cpu", [1]⟩)
        (.cons "b" (.tensor ⟨.float, "cpu", [2]⟩) .nil)).setDev "mps").keys =
      (EntryList.cons "a" (BatchValue.tensor ⟨.float, "cpu", [1]⟩)
        (.cons "b" (.tensor ⟨.float, "cpu", [2]⟩) .nil)).keys ∧
    ((EntryList.cons "a" (BatchValue.tensor ⟨.float, "cpu", [1]⟩)
        (.cons "b" (.tensor ⟨.float, "cpu", [2]⟩) .nil)).setDev "mps").onDev
      "mps" = true) :=
  ⟨rfl, rfl, c5_relocate_record ["mps"] "mps" "BatchType" _ _ [] rfl rfl⟩

/-- Claim C6: for an object exposing the `to(device)` capability (not a
tensor, sequence, record or mapping), `relocate` invokes the capability and
returns exactly its return value; since the capability mutates the object's
tensor field and returns self, the result is the same object (same identity)
with its field now resident on the target device. -/
theorem c6_relocate_cap (avail : List Device) (d : Device) (c c' : CapObj)
    (h : c.to avail d = .ok c') :
    relocate avail d (.cap c) = .ok (.cap c', []) ∧
    c'.id = c.id ∧ c'.a.device = d := by
  refine ⟨?_, ?_, ?_⟩
  · rw [relocate, h]
  · rw [capObj_to_ok h]
  · rw [capObj_to_ok h]
    exact Tensor.setDev_device c.a d

/-- Witness for C6: the test's `CustomBatchType` object, identity 42. -/
theorem c6_witness :
    CapObj.to ⟨42, ⟨.float, "cpu", [5]⟩⟩ ["mps"] "mps" =
      .ok ⟨42, ⟨.float, "mps", [5]⟩⟩ ∧
    (relocate ["mps"] "mps" (.cap ⟨42, ⟨.float, "cpu", [5]⟩⟩) =
      .ok (.cap ⟨42, ⟨.float, "mps", [5]⟩⟩, []) ∧
    (CapObj.mk 42 ⟨.float, "mps", [5]⟩).id = (CapObj.mk 42 ⟨.float, "cpu", [5]⟩).id ∧
    (CapObj.mk 42 ⟨.float, "mps", [5]⟩).a.device = "mps") :=
  ⟨rfl, c6_relocate_cap ["mps"] "mps" _ _ rfl⟩

/-- Claim C7: relocation is idempotent: when `relocate` succeeds, running it
again on its result (same device, same environment) returns that result
unchanged — the same value and the same deprecation signals. -/
theorem c7_relocate_idempotent (avail : List Device) (d : Device)
    (v v' : BatchValue) (ws : List String)
    (h : relocate avail d v = .ok (v', ws)) :
    relocate avail d v' = .ok (v', ws) := by
  obtain ⟨h1, h2⟩ := relocate_ok_eq avail d v v' ws h
  subst h1
  subst h2
  rw [relocate_fixed avail d _ (onDev_setDev_value d v),
    warns_setDev_value d v]

/-- Witness for C7 at a concrete nested input. -/
theorem c7_witness :
    relocate ["mps"] "mps"
        (.seq .tuple
          (.cons (.tensor ⟨.long, "cpu", [4]⟩)
            (.cons (.mapping (.cons "a" (.tensor ⟨.float, "cpu", [6]⟩) .nil))
              .nil))) =
      .ok (.seq .tuple
        (.cons (.tensor ⟨.long, "mps", [4]⟩)
          (.cons (.mapping (.cons "a" (.tensor ⟨.float, "mps", [6]⟩) .nil))
            .nil)), []) ∧
    relocate ["mps"] "mps"
        (.seq .tuple
          (.cons (.tensor ⟨.long, "mps", [4]⟩)
            (.cons (.mapping (.cons "a" (.tensor ⟨.float, "mps", [6]⟩) .nil))
              .nil))) =
      .ok (.seq .tuple
        (.cons (.tensor ⟨.long, "mps", [4]⟩)
          (.cons (.mapping (.cons "a" (.tensor ⟨.float, "mps", [6]⟩) .nil))
            .nil)), []) :=
  ⟨rfl,
    c7_relocate_idempotent ["mps"] "mps"
      (.seq .tuple
        (.cons (.tensor ⟨.long, "cpu", [4]⟩)
          (.cons (.mapping (.cons "a" (.tensor ⟨.float, "cpu", [6]⟩) .nil))
            .nil)))
      (.seq .tuple
        (.cons (.tensor ⟨.long, "mps", [4]⟩)
          (.cons (.mapping (.cons "a" (.tensor ⟨.float, "mps", [6]⟩) .nil))
            .nil)))
      [] rfl⟩

/-- Claim C8: when a leaf's relocation capability fails, the failure
propagates to the caller unmodified — for a bare tensor leaf, for a tensor
leaf inside a container, and for a capability object — with no wrapping,
retry or fallback. -/
theorem c8_relocate_error_propagates (avail : List Device) (d : Device)
    (t : Tensor) (c : CapObj) (e e2 : RelocError) (k : SeqKind)
    (xs : BatchList)
    (ht : t.to avail d = .error e)
    (hc : c.to avail d = .error e2) :
    relocate avail d (.tensor t) = .error e ∧
    relocate avail d (.seq k (.cons (.tensor t) xs)) = .error e ∧
    relocate avail d (.cap c) = .error e2 := by
  refine ⟨?_, ?_, ?_⟩
  · rw [relocate, ht]
  · rw [relocate, relocList, relocate, ht]
  · rw [relocate, hc]

/-- Witness for C8: the target device "mps" is unavailable. -/
theorem c8_witness :
    Tensor.to ⟨.float, "cpu", [1]⟩ [] "mps" =
      .error (.deviceUnavailable "mps") ∧
    CapObj.to ⟨0, ⟨.float, "cpu", [2]⟩⟩ [] "mps" =
      .error (.deviceUnavailable "mps") ∧
    (relocate [] "mps" (.tensor ⟨.float, "cpu", [1]⟩) =
      .error (.deviceUnavailable "mps") ∧
    relocate [] "mps" (.seq .list (.cons (.tensor ⟨.float, "cpu", [1]⟩) .nil)) =
      .error (.deviceUnavailable "mps") ∧
    relocate [] "mps" (.cap ⟨0, ⟨.float, "cpu", [2]⟩⟩) =
      .error (.deviceUnavailable "mps")) :=
  ⟨rfl, rfl,
    c8_relocate_error_propagates [] "mps" ⟨.float, "cpu", [1]⟩
      ⟨0, ⟨.float, "cpu", [2]⟩⟩ (.deviceUnavailable "mps")
      (.deviceUnavailable "mps") .list .nil rfl rfl⟩

/-- Claim C9: relocating the legacy torchtext Batch object emits the
deprecation signal to the caller and returns an object of the same type with
the same field names, all of whose named tensor fields reside on the target
device. -/
theorem c9_relocate_legacy (avail : List Device) (d : Device)
    (fs : List (String × Tensor)) (v' : BatchValue) (ws : List String)
    (h : relocate avail d (.legacyBatch fs) = .ok (v', ws)) :
    ws = [torchtextDeprecationMsg] ∧
    v' = .legacyBatch (fs.map (fun nt => (nt.1, nt.2.setDev d))) ∧
    (fs.map (fun nt => (nt.1, nt.2.setDev d))).map Prod.fst = fs.map Prod.fst ∧
    (fs.map (fun nt => (nt.1, nt.2.setDev d))).all
      (fun nt => nt.2.device = d) = true := by
  obtain ⟨h1, h2⟩ := relocate_ok_eq avail d _ v' ws h
  refine ⟨h2, h1, by simp [List.map_map, Function.comp], ?_⟩
  simp [List.all_map, Function.comp, Tensor.setDev_device]

/-- Witness for C9: a Batch with "text" and "label" long-tensor fields. -/
theorem c9_witness :
    relocate ["mps"] "mps"
        (.legacyBatch [("text", ⟨.long, "cpu", [3]⟩), ("label", ⟨.long, "cpu", [0]⟩)]) =
      .ok (.legacyBatch [("text", ⟨.long, "mps", [3]⟩), ("label", ⟨.long, "mps", [0]⟩)],
        [torchtextDeprecationMsg]) ∧
    ([torchtextDeprecationMsg] = [torchtextDeprecationMsg] ∧
    BatchValue.legacyBatch [("text", ⟨.long, "mps", [3]⟩), ("label", ⟨.long, "mps", [0]⟩)] =
      .legacyBatch
        (([("text", (⟨.long, "cpu", [3]⟩ : Tensor)), ("label", ⟨.long, "cpu", [0]⟩)]).map
          (fun nt => (nt.1, nt.2.setDev "mps"))) ∧
    (([("text", (⟨.long, "cpu", [3]⟩ : Tensor)), ("label", ⟨.long, "cpu", [0]⟩)]).map
        (fun nt => (nt.1, nt.2.setDev "mps"))).map Prod.fst =
      ([("text", (⟨.long, "cpu", [3]⟩ : Tensor)), ("label", ⟨.long, "cpu", [0]⟩)]).map
        Prod.fst ∧
    (([("text", (⟨.long, "cpu", [3]⟩ : Tensor)), ("label", ⟨.long, "cpu", [0]⟩)]).map
        (fun nt => (nt.1, nt.2.setDev "mps"))).all
      (fun nt => nt.2.device = "mps") = true) :=
  ⟨rfl, c9_relocate_legacy ["mps"] "mps" _ _ [torchtextDeprecationMsg] rfl⟩

/-- Claim C10: relocation preserves the dtype of every tensor-like leaf:
whenever `relocate` succeeds, the dtype list of the result (in traversal
order) equals that of the input — a float tensor stays float, a long tensor
stays long; only devices change. -/
theorem c10_relocate_preserves_dtypes (avail : List Device) (d : Device)
    (v v' : BatchValue) (ws : List String)
    (h : relocate avail d v = .ok (v', ws)) :
    v'.dtypes = v.dtypes := by
  obtain ⟨h1, _⟩ := relocate_ok_eq avail d v v' ws h
  rw [h1]
  exact dtypes_setDev_value d v

/-- Witness for C10: a float tensor and a long tensor keep their dtypes. -/
theorem c10_witness :
    relocate ["mps"] "mps"
        (.seq .list
          (.cons (.tensor ⟨.float, "cpu", [1]⟩)
            (.cons (.tensor ⟨.long, "cpu", [2]⟩) .nil))) =
      .ok (.seq .list
        (.cons (.tensor ⟨.float, "mps", [1]⟩)
          (.cons (.tensor ⟨.long, "mps", [2]⟩) .nil)), []) ∧
    (BatchValue.seq .list
        (.cons (.tensor ⟨.float, "mps", [1]⟩)
          (.cons (.tensor ⟨.long, "mps", [2]⟩) .nil))).dtypes =
      (BatchValue.seq .list
        (.cons (.tensor ⟨.float, "cpu", [1]⟩)
          (.cons (.tensor ⟨.long, "cpu", [2]⟩) .nil))).dtypes :=
  ⟨rfl, c10_relocate_preserves_dtypes ["mps"] "mps" _ _ [] rfl⟩

end Lightning
